import Mathlib

/-!
Verification of the core logic of the household-ledger application (src/app.py):
the tabular store adapter (`ws_read_df` / `ws_write_df`), the recurrence
materializer (`apply_fixed_to_ledger_for_month` / `apply_subs_to_ledger_for_month`),
the budget aggregator (`load_budget_month` / `save_budget_month`), the input
coercion helper (`to_int_money`) and `load_fixed` / `get_or_create_worksheet`.

Python strings are modelled as Lean `String`s with explicit char-list operations
(`String.trim` does not reduce in the kernel, so we model `str.strip` directly).
Dataframes are modelled as an ordered column list plus rows of string cells;
pandas `KeyError` is modelled with `Except`.  Fresh `uuid4` identifiers are
modelled by an identifier supply `idGen : Nat → String` indexed by the number of
rows added so far, and the ambient logged-in user by an explicit `user` argument.
-/

namespace HouseholdApp

/-! ### Python string primitives -/

/-- Python `str.strip()`: drop leading and trailing whitespace characters. -/
def pyStrip (s : String) : String :=
  ⟨((s.data.dropWhile Char.isWhitespace).reverse.dropWhile Char.isWhitespace).reverse⟩

/-- Decimal value of a digit string (used to model Python `int(...)`). -/
def digitsVal (cs : List Char) : Nat :=
  cs.foldl (fun n c => n * 10 + (c.toNat - '0'.toNat)) 0

/-- Python `int(s)` on a string made of digits and `-` signs: an optional single
leading minus followed by at least one digit parses, anything else raises
(`none` models the `ValueError` branch). -/
def parsePyInt (cs : List Char) : Option Int :=
  match cs with
  | [] => none
  | c :: rest =>
    if c = '-' then
      if rest ≠ [] ∧ rest.all Char.isDigit then some (-(digitsVal rest : Int)) else none
    else
      if (c :: rest).all Char.isDigit then some ((digitsVal (c :: rest) : Int)) else none

/-- Model of `pd.to_numeric(x, errors="coerce").fillna(d).astype(int)` on a single cell
holding an integer-formatted string (the only shape the app ever writes). -/
def pyIntD (s : String) (d : Int) : Int :=
  (parsePyInt (pyStrip s).data).getD d

/-- Numeric coercion with default 0 (`fillna(0)`), the common case. -/
def pyInt (s : String) : Int := pyIntD s 0

/-- Embedding of `to_int_money` from src/app.py lines 385-398: strip, drop thousands
separators and every character but digits and `-`, fall back to `default`
for the shapes Python `int()` rejects. -/
def to_int_money (x : String) (default : Int) : Int :=
  let s := pyStrip x
  if s = "" then default
  else
    let t := s.data.filter (fun c => c.isDigit || c = '-')
    if t = [] ∨ t = ['-'] ∨ t = ['-', '-'] then default
    else (parsePyInt t).getD default

/-- One pass of `re.sub(r"\s+", "_", s)`: collapse each whitespace run to one `_`.
`prevWs` records whether the previous character was part of a whitespace run. -/
def collapseRunsAux : Bool → List Char → List Char
  | _, [] => []
  | prevWs, c :: rest =>
    if c.isWhitespace then
      (if prevWs then [] else ['_']) ++ collapseRunsAux true rest
    else
      c :: collapseRunsAux false rest

/-- Characters kept by `re.sub(r"[^0-9A-Za-z가-힣_\-]", "", s)`. -/
def allowedKeyChar (c : Char) : Bool :=
  c.isDigit || c.isAlpha || (0xAC00 ≤ c.toNat && c.toNat ≤ 0xD7A3) || c = '_' || c = '-'

/-- Embedding of `safe_key_part` from src/app.py lines 434-438: strip, collapse whitespace
runs to `_`, keep only alphanumeric/Hangul/`_`/`-`, truncate to 60 chars. -/
def safe_key_part (s : String) : String :=
  ⟨((collapseRunsAux false (pyStrip s).data).filter allowedKeyChar).take 60⟩

/-! ### Calendar (`calendar.monthrange` and `month_range`) -/

/-- Gregorian leap-year rule used by `calendar.monthrange`. -/
def isLeapYear (y : Nat) : Bool :=
  y % 4 = 0 && (y % 100 ≠ 0 || y % 400 = 0)

/-- Model of `calendar.monthrange(year, month)[1]`: the last day of the month,
i.e. the `last_day` returned by `month_range` (src/app.py lines 379-383). -/
def daysInMonth (y m : Nat) : Nat :=
  if m = 2 then (if isLeapYear y then 29 else 28)
  else if m = 4 ∨ m = 6 ∨ m = 9 ∨ m = 11 then 30
  else 31

/-- Format `f"{year}{month:02d}"`. -/
def yyyymm (y m : Nat) : String :=
  toString y ++ (if m < 10 then "0" ++ toString m else toString m)

/-! ### Data model -/

/-- One row of the `ledger` table.  A calendar date is a `(year, month, day)`
triple; amounts are integers in the smallest currency unit. -/
structure LedgerEntry where
  id : String
  date : Nat × Nat × Nat
  type : String
  category : String
  amount : Int
  memo : String
  fixed_key : String
  user : String
deriving DecidableEq, Repr

/-- One row of the `fixed_expenses` table, as consumed by the materializer
(`load_fixed` delivers integer `amount`/`day` columns). -/
structure FixedExpenseRule where
  fixed_id : String
  name : String
  amount : Int
  day : Int
  memo : String
deriving DecidableEq, Repr

/-- One row of the `card_subscriptions` table, as consumed by the materializer. -/
structure CardSubscriptionRule where
  card_name : String
  merchant : String
  amount : Int
  day : Int
  memo : String
deriving DecidableEq, Repr

def FIXED_CATEGORY : String := "9. 고정지출"

def LUMPSUM_CATEGORY : String := "10. 목돈지출"

def expense_categories : List String :=
  ["1. 식재료", "2. 외식/배달", "3. 생활", "4. 육아용품", "5. 여가",
   "6. 교통/유류", "7. 의료", "8. 기타", "9. 고정지출", "10. 목돈지출"]

/-- Definition `[c for c in expense_categories if c not in [FIXED_CATEGORY, LUMPSUM_CATEGORY]]`. -/
def budget_categories : List String :=
  expense_categories.filter (fun c => !(c == FIXED_CATEGORY || c == LUMPSUM_CATEGORY))

def LEDGER_COLS : List String :=
  ["id", "date", "type", "category", "amount", "memo", "fixed_key", "user"]

def BUDGET_COLS : List String := ["year", "month", "category", "budget"]

def FIXED_COLS : List String := ["fixed_id", "name", "amount", "day", "memo"]

/-! ### Recurrence materializer (src/app.py lines 592-699)

Both loops share one shape: compute an idempotency key per rule, skip the rule
when it is structurally invalid or its key is already present, otherwise emit a
ledger entry whose `fixed_key` is that key.  `matGo` is that shared loop; the
`Nat` argument counts rows already added (it indexes the fresh-id supply). -/

def existingFixedKeys (L : List LedgerEntry) : List String :=
  L.map (·.fixed_key)

/-- The materializer loop: `f` returns `none` for a rule that is skipped as
invalid, and otherwise the rule's idempotency key together with the entry
builder (a function of the fresh-id index). -/
def matGo {α : Type} (f : α → Option (String × (Nat → LedgerEntry)))
    (existing : List String) : List α → Nat → List LedgerEntry
  | [], _ => []
  | r :: rest, k =>
    match f r with
    | none => matGo f existing rest k
    | some (key, mk) =>
      if key ∈ existing then matGo f existing rest k
      else mk k :: matGo f existing rest (k + 1)

/-- The idempotency key `f"FIX_{fixed_id}_{yyyymm}"` of a fixed rule, or `none`
when the rule is skipped for a blank `fixed_id`. -/
def fixKeyOf (y m : Nat) (fx : FixedExpenseRule) : Option String :=
  if pyStrip fx.fixed_id = "" then none
  else some ("FIX_" ++ pyStrip fx.fixed_id ++ "_" ++ yyyymm y m)

/-- The ledger entry appended for a fixed rule (src/app.py lines 615-636). -/
def mkFixedEntry (idGen : Nat → String) (user : String) (y m : Nat)
    (fx : FixedExpenseRule) (key : String) (k : Nat) : LedgerEntry :=
  let name := pyStrip fx.name
  let memo := pyStrip fx.memo
  let day := (max 1 (min fx.day (daysInMonth y m : Int))).toNat
  let full_memo := if memo ≠ "" then (if name ≠ "" then name ++ " (" ++ memo ++ ")" else memo)
                   else name
  { id := idGen k, date := (y, m, day), type := "지출", category := FIXED_CATEGORY,
    amount := fx.amount, memo := pyStrip ("[고정지출] " ++ full_memo),
    fixed_key := key, user := user }

def fixedStep (idGen : Nat → String) (user : String) (y m : Nat)
    (fx : FixedExpenseRule) : Option (String × (Nat → LedgerEntry)) :=
  (fixKeyOf y m fx).map (fun key => (key, mkFixedEntry idGen user y m fx key))

/-- Embedding of `apply_fixed_to_ledger_for_month` (src/app.py lines 592-642).  The source's
early returns `(ledger_df, 0)` for an empty rule set or an empty `add_rows`
both coincide with appending the empty row list. -/
def apply_fixed_to_ledger_for_month (idGen : Nat → String) (user : String)
    (L : List LedgerEntry) (rules : List FixedExpenseRule) (y m : Nat) :
    List LedgerEntry × Nat :=
  let rows := matGo (fixedStep idGen user y m) (existingFixedKeys L) rules 0
  (L ++ rows, rows.length)

/-- The idempotency key `f"SUB_{safe_key_part(card)}_{safe_key_part(merchant)}_{yyyymm}"`
of a subscription rule, or `none` when the rule is skipped for a blank merchant
or a zero amount. -/
def subKeyOf (y m : Nat) (sb : CardSubscriptionRule) : Option String :=
  if pyStrip sb.merchant = "" then none
  else if sb.amount = 0 then none
  else some ("SUB_" ++ safe_key_part sb.card_name ++ "_" ++ safe_key_part sb.merchant
              ++ "_" ++ yyyymm y m)

/-- The ledger entry appended for a subscription rule (src/app.py lines 677-693). -/
def mkSubEntry (idGen : Nat → String) (user : String) (y m : Nat)
    (sb : CardSubscriptionRule) (key : String) (k : Nat) : LedgerEntry :=
  let card := pyStrip sb.card_name
  let merchant := pyStrip sb.merchant
  let memo := pyStrip sb.memo
  let day := (max 1 (min sb.day (daysInMonth y m : Int))).toNat
  let base := if card ≠ "" then merchant ++ " - " ++ card else merchant
  let full_memo0 := "[정기결제] " ++ base
  let full_memo := if memo ≠ "" then full_memo0 ++ " (" ++ memo ++ ")" else full_memo0
  { id := idGen k, date := (y, m, day), type := "지출", category := FIXED_CATEGORY,
    amount := sb.amount, memo := full_memo, fixed_key := key, user := user }

def subStep (idGen : Nat → String) (user : String) (y m : Nat)
    (sb : CardSubscriptionRule) : Option (String × (Nat → LedgerEntry)) :=
  (subKeyOf y m sb).map (fun key => (key, mkSubEntry idGen user y m sb key))

/-- Embedding of `apply_subs_to_ledger_for_month` (src/app.py lines 644-699). -/
def apply_subs_to_ledger_for_month (idGen : Nat → String) (user : String)
    (L : List LedgerEntry) (rules : List CardSubscriptionRule) (y m : Nat) :
    List LedgerEntry × Nat :=
  let rows := matGo (subStep idGen user y m) (existingFixedKeys L) rules 0
  (L ++ rows, rows.length)

/-- The key-uniqueness invariant of the ledger: the non-empty `fixed_key`
values of its rows are pairwise distinct. -/
def fixedKeyInvariant (L : List LedgerEntry) : Prop :=
  ((L.map (·.fixed_key)).filter (fun s => s ≠ "")).Nodup

instance (L : List LedgerEntry) : Decidable (fixedKeyInvariant L) := by
  unfold fixedKeyInvariant; infer_instance

/-! ### Tabular store adapter (src/app.py lines 126-188)

A worksheet's stored values are a list of rows of string cells; a dataframe is
an ordered column list plus rows of cells aligned to it. -/

abbrev Sheet := List (List String)

structure DF where
  cols : List String
  rows : List (List String)
deriving DecidableEq, Repr

/-- The cell of row `r` (aligned to `cols`) in column `c`: missing columns read
as the empty default, exactly the reconciliation in `ws_read_df`/`ws_write_df`. -/
def cellOf (cols : List String) (r : List String) (c : String) : String :=
  if c ∈ cols then r.getD (cols.indexOf c) "" else ""

/-- Embedding of `ws_read_df` (src/app.py lines 126-147): take the first stored row as the
header (falling back to `columns` when it is empty or all-blank), then
reconcile to exactly `columns` — known columns kept, missing ones defaulted to
`""`, unknown ones dropped. -/
def ws_read_df (values : Sheet) (columns : List String) : DF :=
  match values with
  | [] => ⟨columns, []⟩
  | header :: data =>
    let hdr := if header.isEmpty || header.all (fun h => pyStrip h == "") then columns
               else header
    ⟨columns, data.map (fun r => columns.map (cellOf hdr r))⟩

/-- Embedding of `ws_write_df` (src/app.py lines 149-162): replace the table with a header
row of exactly `columns` followed by each dataframe row serialized under
`columns` (missing columns filled with `""`, extra columns dropped). -/
def ws_write_df (df : DF) (columns : List String) : Sheet :=
  columns :: df.rows.map (fun r => columns.map (cellOf df.cols r))

/-- Embedding of `ensure_columns` (src/app.py lines 181-188). -/
def ensure_columns (df : DF) (cols : List String) (defaults : String → String) : DF :=
  ⟨cols, df.rows.map (fun r =>
    cols.map (fun c => if c ∈ df.cols then r.getD (df.cols.indexOf c) "" else defaults c))⟩

/-! ### Budget aggregator (src/app.py lines 704-750) -/

/-- The stored `budgets_monthly` rows that match the target month, after the
numeric coercion of `year`/`month` and the strip of `category`
(src/app.py lines 708-715): the `(category, budget)` selection.  When the
stored table is empty both source branches yield the empty selection. -/
def budgetMonthRows (stored : Sheet) (y m : Int) : List (String × Int) :=
  (((ws_read_df stored BUDGET_COLS).rows.map (fun r =>
      (pyInt (r.getD 0 ""), pyInt (r.getD 1 ""), pyStrip (r.getD 2 ""), pyInt (r.getD 3 ""))))
    |>.filter (fun t => t.1 == y && t.2.1 == m))
    |>.map (fun t => (t.2.2.1, t.2.2.2))

/-- Column `bdf["__ord"]`: position of the category in the configured list, 9999 for
unknown categories (src/app.py line 730). -/
def catOrd (cats : List String) (c : String) : Nat :=
  if c ∈ cats then cats.indexOf c else 9999

/-- The selection after default synthesis, strip and category filtering
(src/app.py lines 717-723). -/
def lbmSelected (expense_cats : List String) (month : List (String × Int)) :
    List (String × Int) :=
  ((if month.isEmpty then expense_cats.map (fun c => (c, (0 : Int))) else month).map
      (fun p => (pyStrip p.1, p.2))).filter (fun p => decide (p.1 ∈ expense_cats))

/-- The selection with missing configured categories appended at budget 0
(src/app.py lines 725-727). -/
def lbmFull (expense_cats : List String) (month : List (String × Int)) :
    List (String × Int) :=
  lbmSelected expense_cats month
    ++ (expense_cats.filter (fun c =>
          !(decide (c ∈ (lbmSelected expense_cats month).map Prod.fst)))).map
        (fun c => (c, (0 : Int)))

/-- Embedding of `load_budget_month` (src/app.py lines 704-732).  `sort_values("__ord")`
sorts rows by the `catOrd` key. -/
def load_budget_month (expense_cats : List String) (stored : Sheet) (y m : Int) :
    List (String × Int) :=
  (lbmFull expense_cats (budgetMonthRows stored y m)).insertionSort
    (fun p q => catOrd expense_cats p.1 ≤ catOrd expense_cats q.1)

/-- The rows written for the target month by `save_budget_month`
(src/app.py lines 735-741): strip categories, keep configured ones, stamp the
target year and month, serialize under `BUDGET_COLS`. -/
def savedBudgetRows (bdf_month : List (String × Int)) (y m : Int) :
    List (List String) :=
  ((bdf_month.map (fun p => (pyStrip p.1, p.2))).filter
      (fun p => decide (p.1 ∈ expense_categories))).map
    (fun p => [toString y, toString m, p.1, toString p.2])

/-- Embedding of `save_budget_month` (src/app.py lines 734-750): read all stored rows,
coerce `year`/`month` to integers, drop the target month's rows, append the
supplied month rows, and rewrite the whole table under `BUDGET_COLS`. -/
def save_budget_month (bdf_month : List (String × Int)) (y m : Int)
    (stored : Sheet) : Sheet :=
  let all := (ws_read_df stored BUDGET_COLS).rows
  let coerced := all.map (fun r =>
    (pyInt (r.getD 0 ""), pyInt (r.getD 1 ""), r.getD 2 "", r.getD 3 ""))
  let kept := coerced.filter (fun t => !(t.1 == y && t.2.1 == m))
  ws_write_df
    ⟨BUDGET_COLS,
     kept.map (fun t => [toString t.1, toString t.2.1, t.2.2.1, t.2.2.2])
       ++ savedBudgetRows bdf_month y m⟩
    BUDGET_COLS

/-! ### `load_fixed` (src/app.py lines 752-764)

Pandas column reads/writes on a dataframe: reading a column absent from the
frame raises `KeyError`, modelled by `Except`.  Every statement
`df[c] = g(df[c])` first evaluates `df[c]`. -/

def dfGetCol (df : DF) (c : String) : Except String (List String) :=
  if c ∈ df.cols then
    .ok (df.rows.map (fun r => r.getD (df.cols.indexOf c) ""))
  else .error c

/-- Statement `df[c] = df[c].map f` on an existing column; `KeyError c` otherwise. -/
def dfMapCol (df : DF) (c : String) (f : String → String) : Except String DF := do
  let _ ← dfGetCol df c
  .ok ⟨df.cols, df.rows.map (fun r =>
    r.set (df.cols.indexOf c) (f (r.getD (df.cols.indexOf c) "")))⟩

/-- Embedding of `load_fixed` (src/app.py lines 752-764), statement by statement.  After
`ensure_columns(df, FIXED_COLS, ...)` the frame has exactly the five
`FIXED_COLS` columns, yet the source then reads `df["category"]`,
`df["active"]` and `df["user"]`. -/
def load_fixed (stored : Sheet) : Except String DF :=
  let df0 := ws_read_df stored FIXED_COLS
  if df0.rows.isEmpty then .ok df0
  else do
    let df1 := ensure_columns df0 FIXED_COLS (fun c => if c = "amount" then "0" else "")
    let df2 ← dfMapCol df1 "fixed_id" id
    let df3 ← dfMapCol df2 "amount" (fun s => toString (pyInt s))
    let df4 ← dfMapCol df3 "day" (fun s => toString (max 1 (min 31 (pyIntD s 1))))
    let df5 ← dfMapCol df4 "category" id
    let df6 ← dfMapCol df5 "memo" id
    let df7 ← dfMapCol df6 "active" (fun s => if s = "" then "Y" else s)
    let df8 ← dfMapCol df7 "user" id
    .ok df8

/-! ### Store adapter error path (src/app.py lines 96-124)

`get_or_create_worksheet` issues remote calls against the spreadsheet service;
`worksheetFetch n` is the outcome of its `n`-th `sh.worksheet(title)` call and
`addWorksheet` the outcome of `sh.add_worksheet(...)`.  The result carries the
number of remote calls made before returning or raising. -/

inductive GsError where
  | worksheetNotFound
  | apiError (transient : Bool)
  | otherError
deriving DecidableEq, Repr

structure SheetsService where
  worksheetFetch : Nat → Except GsError String
  addWorksheet : Except GsError String

/-- Embedding of `get_or_create_worksheet`: return the worksheet if the fetch succeeds;
re-raise `APIError` and any other exception immediately; only on
`WorksheetNotFound` try to create it, and on an `APIError` during creation
fetch once more. -/
def get_or_create_worksheet (svc : SheetsService) : Except GsError String × Nat :=
  match svc.worksheetFetch 0 with
  | .ok w => (.ok w, 1)
  | .error .worksheetNotFound =>
    match svc.addWorksheet with
    | .ok w => (.ok w, 2)
    | .error (.apiError _) => (svc.worksheetFetch 1, 3)
    | .error e => (.error e, 2)
  | .error e => (.error e, 1)

/-! ### Concrete inputs used by counterexamples and witnesses -/

/-- The spec's example rule: Rent, 800000, day 31. -/
def rentRule : FixedExpenseRule :=
  { fixed_id := "f1", name := "Rent", amount := 800000, day := 31, memo := "" }

/-- Two fixed rules with the same identity (`fixed_id = "a"`) in one batch. -/
def dupFixedRules : List FixedExpenseRule :=
  [{ fixed_id := "a", name := "x", amount := 1, day := 1, memo := "" },
   { fixed_id := "a", name := "y", amount := 2, day := 1, memo := "" }]

/-- A decimal fresh-id supply standing in for `uuid.uuid4()`. -/
def natIds : Nat → String := fun k => toString k

/-- A service whose every remote call fails with a transient (rate-limit)
`APIError`. -/
def rateLimitedService : SheetsService :=
  { worksheetFetch := fun _ => .error (.apiError true),
    addWorksheet := .error (.apiError true) }

/-- A service whose first fetch fails with a non-API, non-not-found error. -/
def fatalService : SheetsService :=
  { worksheetFetch := fun _ => .error .otherError,
    addWorksheet := .error .otherError }

/-- A `fixed_expenses` sheet with one stored rule row. -/
def sampleFixedSheet : Sheet :=
  [FIXED_COLS, ["f1", "Rent", "800000", "1", ""]]

/-! ## Lemmas about the materializer loop -/

theorem matGo_cons_none {α : Type} (f : α → Option (String × (Nat → LedgerEntry)))
    (ex : List String) (r : α) (rest : List α) (k : Nat) (h : f r = none) :
    matGo f ex (r :: rest) k = matGo f ex rest k := by
  simp [matGo, h]

theorem matGo_cons_some_mem {α : Type} (f : α → Option (String × (Nat → LedgerEntry)))
    (ex : List String) (r : α) (rest : List α) (k : Nat) (key : String)
    (mk : Nat → LedgerEntry) (h : f r = some (key, mk)) (hin : key ∈ ex) :
    matGo f ex (r :: rest) k = matGo f ex rest k := by
  simp [matGo, h, hin]

theorem matGo_cons_some_new {α : Type} (f : α → Option (String × (Nat → LedgerEntry)))
    (ex : List String) (r : α) (rest : List α) (k : Nat) (key : String)
    (mk : Nat → LedgerEntry) (h : f r = some (key, mk)) (hnin : key ∉ ex) :
    matGo f ex (r :: rest) k = mk k :: matGo f ex rest (k + 1) := by
  simp [matGo, h, hnin]

theorem matGo_append_skip {α : Type} (f : α → Option (String × (Nat → LedgerEntry)))
    (ex : List String) (r : α) (h : f r = none) :
    ∀ (pre post : List α) (k : Nat),
      matGo f ex (pre ++ r :: post) k = matGo f ex (pre ++ post) k := by
  intro pre
  induction pre with
  | nil => intro post k; simpa using matGo_cons_none f ex r post k h
  | cons p pre ih =>
    intro post k
    simp only [List.cons_append]
    cases hp : f p with
    | none => rw [matGo_cons_none f ex p _ k hp, matGo_cons_none f ex p _ k hp, ih]
    | some q =>
      obtain ⟨key, mk⟩ := q
      by_cases hk : key ∈ ex
      · rw [matGo_cons_some_mem f ex p _ k key mk hp hk,
            matGo_cons_some_mem f ex p _ k key mk hp hk, ih]
      · rw [matGo_cons_some_new f ex p _ k key mk hp hk,
            matGo_cons_some_new f ex p _ k key mk hp hk, ih]

theorem matGo_eq_nil_of_present {α : Type} (f : α → Option (String × (Nat → LedgerEntry)))
    (keyOf : α → Option String) (hk : ∀ r, (f r).map Prod.fst = keyOf r)
    (ex : List String) :
    ∀ (rules : List α) (k : Nat),
      (∀ r ∈ rules, ∀ key, keyOf r = some key → key ∈ ex) →
      matGo f ex rules k = [] := by
  intro rules
  induction rules with
  | nil => intro k _; rfl
  | cons r rest ih =>
    intro k hpres
    cases hf : f r with
    | none =>
      rw [matGo_cons_none f ex r rest k hf]
      exact ih k (fun r' hr' => hpres r' (List.mem_cons_of_mem _ hr'))
    | some q =>
      obtain ⟨key, mk⟩ := q
      have hkey : keyOf r = some key := by rw [← hk r, hf]; rfl
      have hin : key ∈ ex := hpres r (List.mem_cons_self _ _) key hkey
      rw [matGo_cons_some_mem f ex r rest k key mk hf hin]
      exact ih k (fun r' hr' => hpres r' (List.mem_cons_of_mem _ hr'))

theorem matGo_covers {α : Type} (f : α → Option (String × (Nat → LedgerEntry)))
    (keyOf : α → Option String) (hk : ∀ r, (f r).map Prod.fst = keyOf r)
    (hfk : ∀ r key mk k, f r = some (key, mk) → (mk k).fixed_key = key) :
    ∀ (rules : List α) (ex : List String) (k : Nat) (r : α), r ∈ rules →
      ∀ key, keyOf r = some key →
      key ∈ ex ∨ key ∈ (matGo f ex rules k).map (·.fixed_key) := by
  intro rules
  induction rules with
  | nil => intro ex k r hr; exact absurd hr (List.not_mem_nil r)
  | cons a rest ih =>
    intro ex k r hr key hkey
    rcases List.mem_cons.mp hr with heq | hr'
    · subst heq
      cases hf : f r with
      | none =>
        rw [← hk r, hf] at hkey
        exact absurd hkey (by simp)
      | some q =>
        obtain ⟨key', mk⟩ := q
        have : key' = key := by
          rw [← hk r, hf] at hkey
          exact Option.some.inj hkey
        subst this
        by_cases hm : key' ∈ ex
        · exact Or.inl hm
        · right
          rw [matGo_cons_some_new f ex r rest k key' mk hf hm]
          simp only [List.map_cons, List.mem_cons]
          exact Or.inl (hfk r key' mk k hf).symm
    · cases hf : f a with
      | none =>
        rw [matGo_cons_none f ex a rest k hf]
        exact ih ex k r hr' key hkey
      | some q =>
        obtain ⟨key', mk⟩ := q
        by_cases hm : key' ∈ ex
        · rw [matGo_cons_some_mem f ex a rest k key' mk hf hm]
          exact ih ex k r hr' key hkey
        · rw [matGo_cons_some_new f ex a rest k key' mk hf hm]
          rcases ih ex (k + 1) r hr' key hkey with h | h
          · exact Or.inl h
          · right
            simp only [List.map_cons, List.mem_cons]
            exact Or.inr h

theorem matGo_nodup_and_fresh {α : Type} (f : α → Option (String × (Nat → LedgerEntry)))
    (keyOf : α → Option String) (hk : ∀ r, (f r).map Prod.fst = keyOf r)
    (hfk : ∀ r key mk k, f r = some (key, mk) → (mk k).fixed_key = key) :
    ∀ (rules : List α) (ex : List String) (k : Nat),
      (rules.filterMap keyOf).Nodup →
      ((matGo f ex rules k).map (·.fixed_key)).Nodup
      ∧ ∀ x ∈ (matGo f ex rules k).map (·.fixed_key),
          x ∈ rules.filterMap keyOf ∧ x ∉ ex := by
  intro rules
  induction rules with
  | nil => intro ex k _; exact ⟨List.nodup_nil, by simp [matGo]⟩
  | cons a rest ih =>
    intro ex k hnd
    cases hf : f a with
    | none =>
      have hka : keyOf a = none := by rw [← hk a, hf]; rfl
      rw [List.filterMap_cons_none hka] at hnd
      rw [matGo_cons_none f ex a rest k hf]
      obtain ⟨h1, h2⟩ := ih ex k hnd
      refine ⟨h1, fun x hx => ?_⟩
      obtain ⟨hx1, hx2⟩ := h2 x hx
      exact ⟨by rw [List.filterMap_cons_none hka]; exact hx1, hx2⟩
    | some q =>
      obtain ⟨key, mk⟩ := q
      have hka : keyOf a = some key := by rw [← hk a, hf]; rfl
      rw [List.filterMap_cons_some hka] at hnd
      rw [List.nodup_cons] at hnd
      obtain ⟨hknot, hndrest⟩ := hnd
      by_cases hm : key ∈ ex
      · rw [matGo_cons_some_mem f ex a rest k key mk hf hm]
        obtain ⟨h1, h2⟩ := ih ex k hndrest
        refine ⟨h1, fun x hx => ?_⟩
        obtain ⟨hx1, hx2⟩ := h2 x hx
        refine ⟨?_, hx2⟩
        rw [List.filterMap_cons_some hka]
        exact List.mem_cons_of_mem _ hx1
      · rw [matGo_cons_some_new f ex a rest k key mk hf hm]
        obtain ⟨h1, h2⟩ := ih ex (k + 1) hndrest
        simp only [List.map_cons]
        rw [hfk a key mk k hf]
        constructor
        · rw [List.nodup_cons]
          refine ⟨fun hcon => ?_, h1⟩
          exact hknot (h2 key hcon).1
        · intro x hx
          rcases List.mem_cons.mp hx with rfl | hx'
          · refine ⟨?_, hm⟩
            rw [List.filterMap_cons_some hka]
            exact List.mem_cons_self _ _
          · obtain ⟨hx1, hx2⟩ := h2 x hx'
            refine ⟨?_, hx2⟩
            rw [List.filterMap_cons_some hka]
            exact List.mem_cons_of_mem _ hx1

/-! ## Lemmas about the fixed-expense and subscription rule steps -/

theorem fixedStep_fst (g : Nat → String) (u : String) (y m : Nat) (fx : FixedExpenseRule) :
    (fixedStep g u y m fx).map Prod.fst = fixKeyOf y m fx := by
  cases h : fixKeyOf y m fx <;> simp [fixedStep, h]

theorem subStep_fst (g : Nat → String) (u : String) (y m : Nat) (sb : CardSubscriptionRule) :
    (subStep g u y m sb).map Prod.fst = subKeyOf y m sb := by
  cases h : subKeyOf y m sb <;> simp [subStep, h]

theorem fixedStep_faithful (g : Nat → String) (u : String) (y m : Nat) :
    ∀ (fx : FixedExpenseRule) (key : String) (mk : Nat → LedgerEntry) (k : Nat),
      fixedStep g u y m fx = some (key, mk) → (mk k).fixed_key = key := by
  intro fx key mk k h
  unfold fixedStep at h
  cases hkey : fixKeyOf y m fx with
  | none => rw [hkey] at h; exact absurd h (by simp)
  | some key' =>
    rw [hkey] at h
    simp only [Option.map_some'] at h
    have hpair := Option.some.inj h
    have h1 : key' = key := congrArg Prod.fst hpair
    have h2 : mkFixedEntry g u y m fx key' = mk := congrArg Prod.snd hpair
    subst h1
    rw [← h2]
    rfl

theorem subStep_faithful (g : Nat → String) (u : String) (y m : Nat) :
    ∀ (sb : CardSubscriptionRule) (key : String) (mk : Nat → LedgerEntry) (k : Nat),
      subStep g u y m sb = some (key, mk) → (mk k).fixed_key = key := by
  intro sb key mk k h
  unfold subStep at h
  cases hkey : subKeyOf y m sb with
  | none => rw [hkey] at h; exact absurd h (by simp)
  | some key' =>
    rw [hkey] at h
    simp only [Option.map_some'] at h
    have hpair := Option.some.inj h
    have h1 : key' = key := congrArg Prod.fst hpair
    have h2 : mkSubEntry g u y m sb key' = mk := congrArg Prod.snd hpair
    subst h1
    rw [← h2]
    rfl

/-! ## Second-run and invariant-preservation lemmas, generic in the rule type -/

theorem mat_second_run_nil {α : Type} (f₁ f₂ : α → Option (String × (Nat → LedgerEntry)))
    (keyOf : α → Option String)
    (hk₁ : ∀ r, (f₁ r).map Prod.fst = keyOf r) (hk₂ : ∀ r, (f₂ r).map Prod.fst = keyOf r)
    (hfk₁ : ∀ r key mk k, f₁ r = some (key, mk) → (mk k).fixed_key = key)
    (L : List LedgerEntry) (rules : List α) :
    matGo f₂ (existingFixedKeys (L ++ matGo f₁ (existingFixedKeys L) rules 0)) rules 0
      = [] := by
  apply matGo_eq_nil_of_present f₂ keyOf hk₂
  intro r hr key hkey
  have hcov := matGo_covers f₁ keyOf hk₁ hfk₁ rules (existingFixedKeys L) 0 r hr key hkey
  unfold existingFixedKeys at *
  rw [List.map_append]
  rcases hcov with h | h
  · exact List.mem_append_left _ h
  · exact List.mem_append_right _ h

theorem mat_preserves_invariant {α : Type} (f : α → Option (String × (Nat → LedgerEntry)))
    (keyOf : α → Option String) (hk : ∀ r, (f r).map Prod.fst = keyOf r)
    (hfk : ∀ r key mk k, f r = some (key, mk) → (mk k).fixed_key = key)
    (L : List LedgerEntry) (rules : List α)
    (hL : fixedKeyInvariant L) (hnd : (rules.filterMap keyOf).Nodup) :
    fixedKeyInvariant (L ++ matGo f (existingFixedKeys L) rules 0) := by
  obtain ⟨hndrows, hmem⟩ :=
    matGo_nodup_and_fresh f keyOf hk hfk rules (existingFixedKeys L) 0 hnd
  unfold fixedKeyInvariant at *
  rw [List.map_append, List.filter_append]
  refine List.Nodup.append hL (hndrows.filter _) ?_
  intro x hx1 hx2
  have hx2' := List.mem_of_mem_filter hx2
  refine (hmem x hx2').2 ?_
  exact List.mem_of_mem_filter hx1

/-! ## Claim theorems: the recurrence materializer -/

/-- C1: applying the fixed-expense materializer (or the subscription
materializer) a second time, with the same rules and target month, to the
ledger produced by a first application adds zero entries: the added-count is 0
and the returned ledger is the first run's ledger unchanged, whatever fresh
ids and user the second run uses. -/
theorem materializer_second_run_is_noop :
    ∀ (g₁ g₂ : Nat → String) (u₁ u₂ : String) (L : List LedgerEntry) (y m : Nat)
      (fixedRules : List FixedExpenseRule) (subRules : List CardSubscriptionRule),
      apply_fixed_to_ledger_for_month g₂ u₂
          (apply_fixed_to_ledger_for_month g₁ u₁ L fixedRules y m).1 fixedRules y m
        = ((apply_fixed_to_ledger_for_month g₁ u₁ L fixedRules y m).1, 0)
      ∧ apply_subs_to_ledger_for_month g₂ u₂
          (apply_subs_to_ledger_for_month g₁ u₁ L subRules y m).1 subRules y m
        = ((apply_subs_to_ledger_for_month g₁ u₁ L subRules y m).1, 0) := by
  intro g₁ g₂ u₁ u₂ L y m fixedRules subRules
  constructor
  · have h := mat_second_run_nil (fixedStep g₁ u₁ y m) (fixedStep g₂ u₂ y m)
      (fixKeyOf y m) (fixedStep_fst g₁ u₁ y m) (fixedStep_fst g₂ u₂ y m)
      (fixedStep_faithful g₁ u₁ y m) L fixedRules
    simp [apply_fixed_to_ledger_for_month, h]
  · have h := mat_second_run_nil (subStep g₁ u₁ y m) (subStep g₂ u₂ y m)
      (subKeyOf y m) (subStep_fst g₁ u₁ y m) (subStep_fst g₂ u₂ y m)
      (subStep_faithful g₁ u₁ y m) L subRules
    simp [apply_subs_to_ledger_for_month, h]

/-- C2 counterexample: a batch holding two fixed rules with the same
`fixed_id` ("a"), applied once to a ledger that satisfies the key-uniqueness
invariant (the empty ledger), produces a ledger with two rows carrying the
same non-empty `fixed_key` — the loop never adds the keys it is emitting to
`existing_keys`. -/
theorem materializer_key_uniqueness_cx :
    fixedKeyInvariant ([] : List LedgerEntry)
    ∧ ¬ fixedKeyInvariant
        (apply_fixed_to_ledger_for_month natIds "u" [] dupFixedRules 2025 1).1 := by
  constructor <;> decide

/-- C2 (amended): a single materializer invocation preserves pairwise
distinctness of the non-empty `fixed_key` values provided the idempotency keys
computed for the input rules are themselves pairwise distinct (in particular,
no two rules share an identity — same `fixed_id`, or same sanitized
`(card_name, merchant)` pair — for the target month). -/
theorem materializer_preserves_key_uniqueness :
    (∀ (g : Nat → String) (u : String) (L : List LedgerEntry)
        (rules : List FixedExpenseRule) (y m : Nat),
        fixedKeyInvariant L → (rules.filterMap (fixKeyOf y m)).Nodup →
        fixedKeyInvariant (apply_fixed_to_ledger_for_month g u L rules y m).1)
    ∧ (∀ (g : Nat → String) (u : String) (L : List LedgerEntry)
        (rules : List CardSubscriptionRule) (y m : Nat),
        fixedKeyInvariant L → (rules.filterMap (subKeyOf y m)).Nodup →
        fixedKeyInvariant (apply_subs_to_ledger_for_month g u L rules y m).1) := by
  constructor
  · intro g u L rules y m hL hnd
    exact mat_preserves_invariant (fixedStep g u y m) (fixKeyOf y m)
      (fixedStep_fst g u y m) (fixedStep_faithful g u y m) L rules hL hnd
  · intro g u L rules y m hL hnd
    exact mat_preserves_invariant (subStep g u y m) (subKeyOf y m)
      (subStep_fst g u y m) (subStep_faithful g u y m) L rules hL hnd

/-- C2 witness: the amended theorem applied at a concrete input. -/
theorem materializer_preserves_key_uniqueness_witness :
    fixedKeyInvariant (apply_fixed_to_ledger_for_month natIds "w" [] [rentRule] 2025 3).1 :=
  materializer_preserves_key_uniqueness.1 natIds "w" [] [rentRule] 2025 3
    (by decide) (by decide)

/-- C4: a fixed rule with a fresh key yields exactly one new entry, dated with
the rule's day clamped into `[1, last day of the target month]`; in
particular Rent (day 31, amount 800000, `fixed_id` "f1") applied to
February 2025 yields one entry dated 2025-02-28 with amount 800000, type
Expense ("지출"), the configured fixed category, key "FIX_f1_202502" and memo
"[고정지출] Rent" (which contains "Rent"); applied to leap-year February 2024
the date is 2024-02-29. -/
theorem fixed_rule_day_clamped :
    (∀ (g : Nat → String) (u : String) (L : List LedgerEntry)
        (fx : FixedExpenseRule) (y m : Nat),
        pyStrip fx.fixed_id ≠ "" →
        ("FIX_" ++ pyStrip fx.fixed_id ++ "_" ++ yyyymm y m) ∉ existingFixedKeys L →
        ∃ e : LedgerEntry,
          apply_fixed_to_ledger_for_month g u L [fx] y m = (L ++ [e], 1)
          ∧ e.date = (y, m, (max 1 (min fx.day (daysInMonth y m : Int))).toNat)
          ∧ e.fixed_key = "FIX_" ++ pyStrip fx.fixed_id ++ "_" ++ yyyymm y m
          ∧ e.type = "지출" ∧ e.category = FIXED_CATEGORY ∧ e.amount = fx.amount)
    ∧ apply_fixed_to_ledger_for_month natIds "me" [] [rentRule] 2025 2
        = ([{ id := "0", date := (2025, 2, 28), type := "지출",
              category := "9. 고정지출", amount := 800000,
              memo := "[고정지출] Rent", fixed_key := "FIX_f1_202502",
              user := "me" }], 1)
    ∧ (apply_fixed_to_ledger_for_month natIds "me" [] [rentRule] 2024 2).1.map (·.date)
        = [(2024, 2, 29)] := by
  refine ⟨?_, by decide, by decide⟩
  intro g u L fx y m hid hkey
  have hstep : fixedStep g u y m fx
      = some ("FIX_" ++ pyStrip fx.fixed_id ++ "_" ++ yyyymm y m,
              mkFixedEntry g u y m fx
                ("FIX_" ++ pyStrip fx.fixed_id ++ "_" ++ yyyymm y m)) := by
    simp [fixedStep, fixKeyOf, hid]
  refine ⟨mkFixedEntry g u y m fx
      ("FIX_" ++ pyStrip fx.fixed_id ++ "_" ++ yyyymm y m) 0, ?_, rfl, rfl, rfl, rfl, rfl⟩
  unfold apply_fixed_to_ledger_for_month
  rw [matGo_cons_some_new _ _ _ _ _ _ _ hstep hkey]
  rfl

/-- C4 witness: the general clamping statement applied at a concrete input. -/
theorem fixed_rule_day_clamped_witness :
    ∃ e : LedgerEntry,
      apply_fixed_to_ledger_for_month natIds "w" [] [rentRule] 2025 6 = ([] ++ [e], 1)
      ∧ e.date = (2025, 6, (max 1 (min rentRule.day (daysInMonth 2025 6 : Int))).toNat)
      ∧ e.fixed_key = "FIX_" ++ pyStrip rentRule.fixed_id ++ "_" ++ yyyymm 2025 6
      ∧ e.type = "지출" ∧ e.category = FIXED_CATEGORY ∧ e.amount = rentRule.amount :=
  fixed_rule_day_clamped.1 natIds "w" [] rentRule 2025 6 (by decide) (by decide)

/-- C7: the materializer skips structurally invalid rules without aborting
the batch — a fixed rule with blank `fixed_id`, a subscription with blank
merchant and a subscription with zero amount each contribute nothing while the
rest of the batch is processed exactly as if the rule were absent — and a
fixed rule with zero amount is NOT skipped. -/
theorem materializer_skips_invalid_rules :
    (∀ (g : Nat → String) (u : String) (L : List LedgerEntry)
        (pre post : List FixedExpenseRule) (y m : Nat) (fx : FixedExpenseRule),
        pyStrip fx.fixed_id = "" →
        apply_fixed_to_ledger_for_month g u L (pre ++ fx :: post) y m
          = apply_fixed_to_ledger_for_month g u L (pre ++ post) y m)
    ∧ (∀ (g : Nat → String) (u : String) (L : List LedgerEntry)
        (pre post : List CardSubscriptionRule) (y m : Nat) (sb : CardSubscriptionRule),
        pyStrip sb.merchant = "" →
        apply_subs_to_ledger_for_month g u L (pre ++ sb :: post) y m
          = apply_subs_to_ledger_for_month g u L (pre ++ post) y m)
    ∧ (∀ (g : Nat → String) (u : String) (L : List LedgerEntry)
        (pre post : List CardSubscriptionRule) (y m : Nat) (sb : CardSubscriptionRule),
        sb.amount = 0 →
        apply_subs_to_ledger_for_month g u L (pre ++ sb :: post) y m
          = apply_subs_to_ledger_for_month g u L (pre ++ post) y m)
    ∧ (∀ (g : Nat → String) (u : String) (L : List LedgerEntry) (y m : Nat)
        (fx : FixedExpenseRule),
        fx.amount = 0 → pyStrip fx.fixed_id ≠ "" →
        ("FIX_" ++ pyStrip fx.fixed_id ++ "_" ++ yyyymm y m) ∉ existingFixedKeys L →
        (apply_fixed_to_ledger_for_month g u L [fx] y m).2 = 1) := by
  refine ⟨?_, ?_, ?_, ?_⟩
  · intro g u L pre post y m fx hid
    have hnone : fixedStep g u y m fx = none := by simp [fixedStep, fixKeyOf, hid]
    unfold apply_fixed_to_ledger_for_month
    rw [matGo_append_skip _ _ _ hnone]
  · intro g u L pre post y m sb hmer
    have hnone : subStep g u y m sb = none := by simp [subStep, subKeyOf, hmer]
    unfold apply_subs_to_ledger_for_month
    rw [matGo_append_skip _ _ _ hnone]
  · intro g u L pre post y m sb hamt
    have hnone : subStep g u y m sb = none := by
      unfold subStep subKeyOf
      split <;> simp_all
    unfold apply_subs_to_ledger_for_month
    rw [matGo_append_skip _ _ _ hnone]
  · intro g u L y m fx _ hid hkey
    have hstep : fixedStep g u y m fx
        = some ("FIX_" ++ pyStrip fx.fixed_id ++ "_" ++ yyyymm y m,
                mkFixedEntry g u y m fx
                  ("FIX_" ++ pyStrip fx.fixed_id ++ "_" ++ yyyymm y m)) := by
      simp [fixedStep, fixKeyOf, hid]
    unfold apply_fixed_to_ledger_for_month
    rw [matGo_cons_some_new _ _ _ _ _ _ _ hstep hkey]
    rfl

/-- C7 witness: the skip equalities and the zero-amount-not-skipped statement
applied at concrete inputs. -/
theorem materializer_skips_invalid_rules_witness :
    apply_fixed_to_ledger_for_month natIds "w" []
        ([] ++ { fixed_id := " ", name := "bad", amount := 3, day := 1, memo := "" }
          :: [rentRule]) 2025 4
      = apply_fixed_to_ledger_for_month natIds "w" [] ([] ++ [rentRule]) 2025 4
    ∧ apply_subs_to_ledger_for_month natIds "w" []
        ([{ card_name := "c", merchant := "Netflix", amount := 5, day := 1, memo := "" }]
          ++ { card_name := "c", merchant := " ", amount := 5, day := 1, memo := "" } :: []) 2025 4
      = apply_subs_to_ledger_for_month natIds "w" []
          ([{ card_name := "c", merchant := "Netflix", amount := 5, day := 1, memo := "" }] ++ []) 2025 4
    ∧ apply_subs_to_ledger_for_month natIds "w" []
        ([] ++ { card_name := "c", merchant := "Spotify", amount := 0, day := 1, memo := "" } :: []) 2025 4
      = apply_subs_to_ledger_for_month natIds "w" [] ([] ++ []) 2025 4
    ∧ (apply_fixed_to_ledger_for_month natIds "w" []
        [{ fixed_id := "z", name := "", amount := 0, day := 1, memo := "" }] 2025 4).2 = 1 :=
  ⟨materializer_skips_invalid_rules.1 natIds "w" [] [] [rentRule] 2025 4 _ (by decide),
   materializer_skips_invalid_rules.2.1 natIds "w" [] _ [] 2025 4 _ (by decide),
   materializer_skips_invalid_rules.2.2.1 natIds "w" [] [] [] 2025 4 _ (by decide),
   materializer_skips_invalid_rules.2.2.2 natIds "w" [] 2025 4 _ (by decide) (by decide)
     (by decide)⟩

/-! ## Claim theorems: store adapter error path, amount parsing, load_fixed -/

/-- C3 counterexample: with every remote call failing with a transient
(rate-limit) `APIError`, `get_or_create_worksheet` propagates the error after
exactly one remote call — there is no backoff loop, so the attempt count is 1,
not the claimed 6. -/
theorem store_retry_cx :
    get_or_create_worksheet rateLimitedService = (.error (.apiError true), 1)
    ∧ (get_or_create_worksheet rateLimitedService).2 ≠ 6 :=
  ⟨rfl, by decide⟩

/-- C3 (amended): the store adapter performs no retry: a transient
(rate-limit/5xx) `APIError` on the worksheet fetch propagates immediately
after exactly one attempt, and so does a fatal (non-API) error. -/
theorem store_no_retry :
    (∀ (svc : SheetsService) (t : Bool),
        svc.worksheetFetch 0 = .error (.apiError t) →
        get_or_create_worksheet svc = (.error (.apiError t), 1))
    ∧ (∀ svc : SheetsService,
        svc.worksheetFetch 0 = .error .otherError →
        get_or_create_worksheet svc = (.error .otherError, 1)) := by
  constructor
  · intro svc t h
    unfold get_or_create_worksheet
    rw [h]
  · intro svc h
    unfold get_or_create_worksheet
    rw [h]

/-- C3 witness: the amended no-retry statement at a concrete failing service. -/
theorem store_no_retry_witness :
    get_or_create_worksheet fatalService = (.error .otherError, 1) :=
  store_no_retry.2 fatalService rfl

/-- A successfully parsed minus-free digit string has a non-negative value. -/
theorem parsePyInt_nonneg :
    ∀ (cs : List Char), '-' ∉ cs → ∀ v : Int, parsePyInt cs = some v → 0 ≤ v := by
  intro cs h v hv
  cases cs with
  | nil => simp [parsePyInt] at hv
  | cons c rest =>
    have hc : ¬(c = '-') := by
      intro hc
      exact h (by simp [hc])
    simp only [parsePyInt, if_neg hc] at hv
    split at hv
    · have := Option.some.inj hv
      subst this
      exact Int.natCast_nonneg _
    · exact absurd hv (by simp)

/-- C9 counterexample: the amount string "-500" parses to the negative value
-500, so an entry-form amount can be negative. -/
theorem to_int_money_cx :
    to_int_money "-500" 0 = -500 ∧ to_int_money "-500" 0 < 0 := by
  constructor <;> decide

/-- C9 (amended): amount parsing is total and coerces malformed text to the
default; the parsed amount is non-negative for every input string without a
minus sign, but inputs containing a minus sign may produce negative amounts. -/
theorem to_int_money_amended :
    (∀ s : String, '-' ∉ (pyStrip s).data → 0 ≤ to_int_money s 0)
    ∧ to_int_money "abc" 0 = 0
    ∧ to_int_money "12,000" 0 = 12000
    ∧ to_int_money "" 7 = 7 := by
  refine ⟨?_, by decide, by decide, by decide⟩
  intro s h
  unfold to_int_money
  dsimp only
  split
  · exact le_refl 0
  · split
    · exact le_refl 0
    · cases hp : parsePyInt ((pyStrip s).data.filter (fun c => c.isDigit || c = '-')) with
      | none => simp [hp]
      | some v =>
        have hmem : '-' ∉ (pyStrip s).data.filter (fun c => c.isDigit || c = '-') :=
          fun hmem => h (List.mem_of_mem_filter hmem)
        have := parsePyInt_nonneg _ hmem v hp
        simpa [hp] using this

/-- C9 witness: the non-negativity statement at a concrete minus-free input. -/
theorem to_int_money_amended_witness : 0 ≤ to_int_money "x5y," 0 :=
  to_int_money_amended.1 "x5y," (by decide)

/-- C10 (code bug): on every `fixed_expenses` table with at least one data
row, `load_fixed` raises `KeyError("category")`: after `ensure_columns`
reduced the frame to exactly the five `FIXED_COLS` columns, the source reads
`df["category"]`, which is not among them.  Only the empty table returns. -/
theorem load_fixed_raises_keyerror :
    (∀ (header row : List String) (rest : List (List String)),
        load_fixed (header :: row :: rest) = .error "category")
    ∧ load_fixed sampleFixedSheet = .error "category"
    ∧ load_fixed [] = .ok ⟨FIXED_COLS, []⟩ :=
  ⟨fun _ _ _ => rfl, rfl, rfl⟩

/-! ## Claim theorems: the store round-trip -/

/-- Looking a serialized row back up by column name reproduces the serialized
cells: duplicated column names all carry the value of their (shared) name. -/
theorem map_getD_indexOf (S : List String) (g : String → String) :
    S.map (fun c => if c ∈ S then (S.map g).getD (S.indexOf c) "" else "") = S.map g := by
  apply List.map_congr_left
  intro c hc
  rw [if_pos hc]
  have hlt : S.indexOf c < S.length := List.indexOf_lt_length.mpr hc
  have hlt' : S.indexOf c < (S.map g).length := by rw [List.length_map]; exact hlt
  rw [List.getD_eq_getElem _ _ hlt', List.getElem_map]
  congr 1
  exact List.getElem_indexOf hlt

/-- C5: writing any dataframe under schema `S` and reading the table back
under `S` yields rows with exactly the columns of `S` in `S`'s order: each
row is the original row serialized under `S` — cells of columns the frame had
are preserved, missing columns are filled with the empty default, extra
columns are dropped. -/
theorem ws_round_trip :
    ∀ (df : DF) (S : List String),
      ws_read_df (ws_write_df df S) S
        = ⟨S, df.rows.map (fun r => S.map (cellOf df.cols r))⟩ := by
  intro df S
  unfold ws_write_df ws_read_df
  dsimp only
  rw [ite_self]
  congr 1
  rw [List.map_map]
  apply List.map_congr_left
  intro r _
  show S.map (cellOf S (S.map (cellOf df.cols r))) = S.map (cellOf df.cols r)
  have h := map_getD_indexOf S (cellOf df.cols r)
  simpa only [cellOf] using h

/-! ## Claim theorems: budget upsert frame -/

/-- A row of four cells is reproduced by its positional reads. -/
theorem row4_eta (r : List String) (h : r.length = 4) :
    [r.getD 0 "", r.getD 1 "", r.getD 2 "", r.getD 3 ""] = r := by
  match r, h with
  | [a, b, c, d], _ => rfl

/-- Reserializing a four-cell row under `BUDGET_COLS` is the identity. -/
theorem budget_row_roundtrip (a b c d : String) :
    BUDGET_COLS.map (cellOf BUDGET_COLS [a, b, c, d]) = [a, b, c, d] := rfl

/-- Reading a well-formed stored `budgets_monthly` table returns its data
rows unchanged. -/
theorem ws_read_budget_wf (data : List (List String))
    (h4 : ∀ r ∈ data, r.length = 4) :
    (ws_read_df (BUDGET_COLS :: data) BUDGET_COLS).rows = data := by
  unfold ws_read_df
  dsimp only
  rw [ite_self]
  conv_rhs => rw [← List.map_id data]
  apply List.map_congr_left
  intro r hr
  have hshape : BUDGET_COLS.map (cellOf BUDGET_COLS r)
      = [r.getD 0 "", r.getD 1 "", r.getD 2 "", r.getD 3 ""] := rfl
  rw [hshape, row4_eta r (h4 r hr)]
  rfl

/-- Coercing, filtering and reserializing well-formed budget rows equals
filtering the original rows. -/
theorem save_kept_rows (y m : Int) (data : List (List String))
    (hwf : ∀ r ∈ data, r.length = 4 ∧ toString (pyInt (r.getD 0 "")) = r.getD 0 ""
           ∧ toString (pyInt (r.getD 1 "")) = r.getD 1 "") :
    (((data.map (fun r =>
          (pyInt (r.getD 0 ""), pyInt (r.getD 1 ""), r.getD 2 "", r.getD 3 "")))
        |>.filter (fun t => !(t.1 == y && t.2.1 == m))).map
          (fun t => [toString t.1, toString t.2.1, t.2.2.1, t.2.2.2]))
      = data.filter (fun r =>
          !(pyInt (r.getD 0 "") == y && pyInt (r.getD 1 "") == m)) := by
  induction data with
  | nil => rfl
  | cons r rest ih =>
    obtain ⟨h4, hy0, hm0⟩ := hwf r (List.mem_cons_self _ _)
    have ihr := ih (fun r' hr' => hwf r' (List.mem_cons_of_mem _ hr'))
    simp only [List.map_cons, List.filter_cons]
    cases hc : (!(pyInt (r.getD 0 "") == y && pyInt (r.getD 1 "") == m)) with
    | false => simpa [hc] using ihr
    | true =>
      simp only [hc, if_pos, List.map_cons]
      rw [ihr]
      congr 1
      show [toString (pyInt (r.getD 0 "")), toString (pyInt (r.getD 1 "")),
            r.getD 2 "", r.getD 3 ""] = r
      rw [hy0, hm0, row4_eta r h4]

/-- C8: `save_budget_month` preserves every stored budget row of any other
`(year, month)` verbatim and in order, and replaces only the target month's
rows with the (stripped, category-filtered, restamped) supplied ones.  The
hypothesis states that the stored rows are well-formed `BudgetEntry` rows:
four cells, with `year` and `month` written as canonical integers. -/
theorem save_budget_month_frame :
    ∀ (b : List (String × Int)) (y m : Int) (data : List (List String)),
      (∀ r ∈ data, r.length = 4 ∧ toString (pyInt (r.getD 0 "")) = r.getD 0 ""
        ∧ toString (pyInt (r.getD 1 "")) = r.getD 1 "") →
      save_budget_month b y m (BUDGET_COLS :: data)
        = BUDGET_COLS ::
            (data.filter (fun r =>
                !(pyInt (r.getD 0 "") == y && pyInt (r.getD 1 "") == m))
              ++ savedBudgetRows b y m) := by
  intro b y m data hwf
  unfold save_budget_month
  dsimp only
  rw [ws_read_budget_wf data (fun r hr => (hwf r hr).1)]
  unfold ws_write_df
  congr 1
  rw [List.map_append]
  congr 1
  · rw [List.map_map]
    have hser : ∀ t : Int × Int × String × String,
        (fun r => BUDGET_COLS.map (cellOf BUDGET_COLS r))
            ((fun t : Int × Int × String × String =>
              [toString t.1, toString t.2.1, t.2.2.1, t.2.2.2]) t)
          = [toString t.1, toString t.2.1, t.2.2.1, t.2.2.2] :=
      fun t => budget_row_roundtrip _ _ _ _
    calc ((data.map (fun r =>
            (pyInt (r.getD 0 ""), pyInt (r.getD 1 ""), r.getD 2 "", r.getD 3 "")))
          |>.filter (fun t => !(t.1 == y && t.2.1 == m))).map
            ((fun r => BUDGET_COLS.map (cellOf BUDGET_COLS r)) ∘
              (fun t : Int × Int × String × String =>
                [toString t.1, toString t.2.1, t.2.2.1, t.2.2.2]))
        = ((data.map (fun r =>
            (pyInt (r.getD 0 ""), pyInt (r.getD 1 ""), r.getD 2 "", r.getD 3 "")))
          |>.filter (fun t => !(t.1 == y && t.2.1 == m))).map
            (fun t : Int × Int × String × String =>
              [toString t.1, toString t.2.1, t.2.2.1, t.2.2.2]) := by
          apply List.map_congr_left
          intro t _
          exact hser t
      _ = _ := save_kept_rows y m data hwf
  · unfold savedBudgetRows
    rw [List.map_map]
    apply List.map_congr_left
    intro p _
    exact budget_row_roundtrip _ _ _ _

/-- C8 witness: the frame statement at a concrete stored table holding rows
for January and February 2025, saving February. -/
theorem save_budget_month_frame_witness :
    save_budget_month [("1. 식재료", 5)] 2025 2
        (BUDGET_COLS :: [["2025", "1", "3. 생활", "7"], ["2025", "2", "5. 여가", "9"]])
      = BUDGET_COLS ::
          ([["2025", "1", "3. 생활", "7"], ["2025", "2", "5. 여가", "9"]].filter (fun r =>
              !(pyInt (r.getD 0 "") == (2025 : Int) && pyInt (r.getD 1 "") == (2 : Int)))
            ++ savedBudgetRows [("1. 식재료", 5)] 2025 2) :=
  save_budget_month_frame [("1. 식재료", 5)] 2025 2
    [["2025", "1", "3. 생활", "7"], ["2025", "2", "5. 여가", "9"]] (by decide)

/-! ## Claim theorems: budget default synthesis -/

/-- C6: when the stored `budgets_monthly` table carries no row for the target
month, `load_budget_month` returns exactly one row per configured budget
category with budget 0, in the canonical configured order; in general every
configured category without a stored row for the month appears with budget 0,
and every returned row's category belongs to the configured list. -/
theorem load_budget_month_defaults :
    (∀ (stored : Sheet) (y m : Int), budgetMonthRows stored y m = [] →
        load_budget_month budget_categories stored y m
          = budget_categories.map (fun c => (c, (0 : Int))))
    ∧ (∀ (stored : Sheet) (y m : Int) (c : String), c ∈ budget_categories →
        c ∉ (budgetMonthRows stored y m).map (fun p => pyStrip p.1) →
        (c, (0 : Int)) ∈ load_budget_month budget_categories stored y m)
    ∧ (∀ (stored : Sheet) (y m : Int) (p : String × Int),
        p ∈ load_budget_month budget_categories stored y m →
        p.1 ∈ budget_categories) := by
  refine ⟨?_, ?_, ?_⟩
  · intro stored y m h
    unfold load_budget_month
    rw [h]
    decide
  · intro stored y m c hc hnot
    unfold load_budget_month
    apply (List.perm_insertionSort _ _).mem_iff.mpr
    by_cases hm : budgetMonthRows stored y m = []
    · rw [hm]
      have hclosed : lbmFull budget_categories []
          = budget_categories.map (fun c => (c, (0 : Int))) := by decide
      rw [hclosed]
      exact List.mem_map.mpr ⟨c, hc, rfl⟩
    · have hcsel : c ∉ (lbmSelected budget_categories (budgetMonthRows stored y m)).map
          Prod.fst := by
        intro hmem
        obtain ⟨p, hp, hpc⟩ := List.mem_map.mp hmem
        unfold lbmSelected at hp
        have hp' := List.mem_of_mem_filter hp
        obtain ⟨q, hq, hqp⟩ := List.mem_map.mp hp'
        apply hnot
        refine List.mem_map.mpr ⟨q, ?_, ?_⟩
        · revert hq
          split
          · intro hq
            exact absurd (List.isEmpty_iff.mp (by assumption)) hm
          · exact fun hq => hq
        · rw [← hpc, ← hqp]
      unfold lbmFull
      apply List.mem_append_right
      apply List.mem_map.mpr
      refine ⟨c, ?_, rfl⟩
      apply List.mem_filter.mpr
      exact ⟨hc, by simpa using hcsel⟩
  · intro stored y m p hp
    unfold load_budget_month at hp
    have hp' := (List.perm_insertionSort _ _).mem_iff.mp hp
    unfold lbmFull at hp'
    rcases List.mem_append.mp hp' with hsel | hmiss
    · unfold lbmSelected at hsel
      have := List.of_mem_filter hsel
      exact of_decide_eq_true this
    · obtain ⟨c, hcf, hcp⟩ := List.mem_map.mp hmiss
      have hcin := List.mem_of_mem_filter hcf
      rw [← hcp]
      exact hcin

/-- C6 witness: the three statements at the empty stored table. -/
theorem load_budget_month_defaults_witness :
    load_budget_month budget_categories [] 2025 7
        = budget_categories.map (fun c => (c, (0 : Int)))
    ∧ ("1. 식재료", (0 : Int)) ∈ load_budget_month budget_categories [] 2025 7
    ∧ ("1. 식재료", (0 : Int)).1 ∈ budget_categories :=
  ⟨load_budget_month_defaults.1 [] 2025 7 (by decide),
   load_budget_month_defaults.2.1 [] 2025 7 "1. 식재료" (by decide) (by decide),
   load_budget_month_defaults.2.2 [] 2025 7 ("1. 식재료", 0) (by decide)⟩

end HouseholdApp
